import Mathlib

/-!
Shallow embedding of `src/main.rs` of the `cli-tool` repository: a one-shot
CLI that validates an `AMOUNTTOKEN` and an address argument, then drives an
external cosmos chain client through connect → balance query → credential
load → wallet derivation → send_coins.

Strings are modelled as `List Char`. The two regexes of `validate_args`
are modelled by deterministic longest-run scanners, which coincide with the
regex semantics here because each block's character class is disjoint from
the next block's leading class (so backtracking can never produce a
different split). The source builds its regexes in the `regex` crate's
default Unicode mode, so `\d` is the full Unicode decimal-digit class
`\p{Nd}` (`isUniDig` below), while the explicit `0-9` range of `valid_str`
and Rust's `u32` parse accept ASCII digits only (`isDig`).
-/

set_option maxRecDepth 4000

instance {ε α : Type} [DecidableEq ε] [DecidableEq α] : DecidableEq (Except ε α) := fun
  | .error e, .error f => decidable_of_iff (e = f) (by simp)
  | .error _, .ok _ => isFalse (by simp)
  | .ok _, .error _ => isFalse (by simp)
  | .ok a, .ok b => decidable_of_iff (a = b) (by simp)

/-- Rust `String`, modelled as a list of characters. -/
abbrev Str := List Char

/-- ASCII digits `0-9`: the digits accepted by Rust's `str::parse::<u32>`
and the literal `0-9` range inside `valid_str`'s character class. -/
def isDig (c : Char) : Bool := '0' ≤ c && c ≤ '9'

/-- The non-ASCII ranges of the Unicode decimal-digit category `\p{Nd}`
(Unicode 15.0, as shipped by the `regex` crate of the source's era), as
inclusive scalar-value ranges. -/
def ndExtRanges : List (Char × Char) := [
  (Char.ofNat 1632, Char.ofNat 1641), (Char.ofNat 1776, Char.ofNat 1785), (Char.ofNat 1984, Char.ofNat 1993),
  (Char.ofNat 2406, Char.ofNat 2415), (Char.ofNat 2534, Char.ofNat 2543), (Char.ofNat 2662, Char.ofNat 2671),
  (Char.ofNat 2790, Char.ofNat 2799), (Char.ofNat 2918, Char.ofNat 2927), (Char.ofNat 3046, Char.ofNat 3055),
  (Char.ofNat 3174, Char.ofNat 3183), (Char.ofNat 3302, Char.ofNat 3311), (Char.ofNat 3430, Char.ofNat 3439),
  (Char.ofNat 3558, Char.ofNat 3567), (Char.ofNat 3664, Char.ofNat 3673), (Char.ofNat 3792, Char.ofNat 3801),
  (Char.ofNat 3872, Char.ofNat 3881), (Char.ofNat 4160, Char.ofNat 4169), (Char.ofNat 4240, Char.ofNat 4249),
  (Char.ofNat 6112, Char.ofNat 6121), (Char.ofNat 6160, Char.ofNat 6169), (Char.ofNat 6470, Char.ofNat 6479),
  (Char.ofNat 6608, Char.ofNat 6617), (Char.ofNat 6784, Char.ofNat 6793), (Char.ofNat 6800, Char.ofNat 6809),
  (Char.ofNat 6992, Char.ofNat 7001), (Char.ofNat 7088, Char.ofNat 7097), (Char.ofNat 7232, Char.ofNat 7241),
  (Char.ofNat 7248, Char.ofNat 7257), (Char.ofNat 42528, Char.ofNat 42537), (Char.ofNat 43216, Char.ofNat 43225),
  (Char.ofNat 43264, Char.ofNat 43273), (Char.ofNat 43472, Char.ofNat 43481), (Char.ofNat 43504, Char.ofNat 43513),
  (Char.ofNat 43600, Char.ofNat 43609), (Char.ofNat 44016, Char.ofNat 44025), (Char.ofNat 65296, Char.ofNat 65305),
  (Char.ofNat 66720, Char.ofNat 66729), (Char.ofNat 68912, Char.ofNat 68921), (Char.ofNat 69734, Char.ofNat 69743),
  (Char.ofNat 69872, Char.ofNat 69881), (Char.ofNat 69942, Char.ofNat 69951), (Char.ofNat 70096, Char.ofNat 70105),
  (Char.ofNat 70384, Char.ofNat 70393), (Char.ofNat 70736, Char.ofNat 70745), (Char.ofNat 70864, Char.ofNat 70873),
  (Char.ofNat 71248, Char.ofNat 71257), (Char.ofNat 71360, Char.ofNat 71369), (Char.ofNat 71472, Char.ofNat 71481),
  (Char.ofNat 71904, Char.ofNat 71913), (Char.ofNat 72016, Char.ofNat 72025), (Char.ofNat 72784, Char.ofNat 72793),
  (Char.ofNat 73040, Char.ofNat 73049), (Char.ofNat 73120, Char.ofNat 73129), (Char.ofNat 73552, Char.ofNat 73561),
  (Char.ofNat 92768, Char.ofNat 92777), (Char.ofNat 92864, Char.ofNat 92873), (Char.ofNat 93008, Char.ofNat 93017),
  (Char.ofNat 120782, Char.ofNat 120831), (Char.ofNat 123200, Char.ofNat 123209), (Char.ofNat 123632, Char.ofNat 123641),
  (Char.ofNat 124144, Char.ofNat 124153), (Char.ofNat 125264, Char.ofNat 125273), (Char.ofNat 130032, Char.ofNat 130041)
]

/-- Membership in one of the non-ASCII `\p{Nd}` ranges. -/
def isUniDigExt (c : Char) : Bool := ndExtRanges.any fun r => r.1 ≤ c && c ≤ r.2

/-- The regex class `\d` of the source's patterns: the source builds its
regexes with `Regex::new` in the `regex` crate's default Unicode mode,
where `\d` matches every Unicode decimal digit (`\p{Nd}`), not only
ASCII `0-9`. -/
def isUniDig (c : Char) : Bool := isDig c || isUniDigExt c

/-- The regex class `[a-zA-Z]`. -/
def isAlp (c : Char) : Bool := ('a' ≤ c && c ≤ 'z') || ('A' ≤ c && c ≤ 'Z')

/-- The regex class `[-]`. -/
def isDash (c : Char) : Bool := c = '-'

/-- The regex class `[a-zA-Z0-9\-_]` used by `valid_str` in `validate_args`. -/
def validChar (c : Char) : Bool := isAlp c || isDig c || c = '-' || c = '_'

/-- The regex `^[a-zA-Z0-9\-_]+$` (`valid_str.is_match` in `validate_args`). -/
def validStr (s : Str) : Bool := !s.isEmpty && s.all validChar

/-- Capture of the regex `^(\d+)([a-zA-Z]+[-]*[\d]*)$`
(`amount_token_regex.captures` in `validate_args`): group 1 is the digit
prefix, group 2 the rest, which must be letters, then dashes, then digits.
Both `\d` occurrences are the Unicode class `isUniDig`. -/
def amountTokenCaptures (s : Str) : Option (Str × Str) :=
  let ds := s.takeWhile isUniDig
  let rest := s.dropWhile isUniDig
  let ls := rest.takeWhile isAlp
  let r2 := rest.dropWhile isAlp
  let r3 := r2.dropWhile isDash
  let r4 := r3.dropWhile isUniDig
  if ds.isEmpty || ls.isEmpty || !r4.isEmpty then none
  else some (ds, rest)

/-- Numeric value of a digit string, as computed by Rust's `u32` parse
(most significant digit first). -/
def digitsToNat (ds : Str) : Nat :=
  ds.foldl (fun a c => 10 * a + (c.toNat - '0'.toNat)) 0

/-- Rust `str::parse::<u32>`: fails on the empty string, on any character
that is not an ASCII digit (`char::to_digit(10)` accepts only `0-9`, so a
non-ASCII Unicode digit is an invalid-digit error), and on values
exceeding `u32::MAX`; never wraps or truncates. -/
def parseU32 (ds : Str) : Option Nat :=
  if ds.isEmpty || !ds.all isDig then none
  else if digitsToNat ds ≤ 4294967295 then some (digitsToNat ds) else none

/-- The error cases of `validate_args`, in the order the source checks them. -/
inductive VErr where
  | badAmountToken
  | badAmount
  | badToken
  | badAddr
deriving DecidableEq, Repr

/-- The message attached to each `validate_args` error in the source. -/
def VErr.message : VErr → String
  | .badAmountToken => "Invalid AMOUNTTOKEN format. Expected format: 'AMOUNTTOKEN' (ex. '100btc')"
  | .badAmount => "Invalid amount. The specified amount must be greater than 0"
  | .badToken => "Invalid token format. Only alphanumeric values and/or '-' and '_' special characters are allowed"
  | .badAddr => "Invalid address format. Only alphanumeric values and/or '-' and '_' special characters are allowed"

/-- Function `validate_args` from `src/main.rs` (lines 236-267): capture amount and
token from `args[0]`, parse the amount as `u32`, charset-check the token,
then charset-check the address `args[1]`. -/
def validate_args (a0 a1 : Str) : Except VErr (Nat × Str × Str) :=
  match amountTokenCaptures a0 with
  | none => .error .badAmountToken
  | some (ds, token) =>
    match parseU32 ds with
    | none => .error .badAmount
    | some amount =>
      if !validStr token then .error .badToken
      else if !validStr a1 then .error .badAddr
      else .ok (amount, token, a1)

example : validate_args "1000BTC".toList "1A1zP1eP5QGefi2DMPTfTL5SLmv7DivfNa".toList
    = .ok (1000, "BTC".toList, "1A1zP1eP5QGefi2DMPTfTL5SLmv7DivfNa".toList) := by decide

example : validate_args "1000ERC-20".toList "eth".toList
    = .ok (1000, "ERC-20".toList, "eth".toList) := by decide

example : validate_args "1000234".toList "abc".toList = .error .badAmountToken := by decide

example : validate_args "btceth".toList "abc".toList = .error .badAmountToken := by decide

example : validate_args "239btc!".toList "abc".toList = .error .badAmountToken := by decide

example : validate_args "239btc".toList "ab!c".toList = .error .badAddr := by decide

example : validate_args "100a٣".toList "addr".toList = .error .badToken := by decide

example : validate_args "٣btc".toList "addr".toList = .error .badAmount := by decide

example : validate_args "100a٣".toList "x!".toList = .error .badToken := by decide

/-- DFA run for the regex fragment `(-\d+)*$`: state 0 is "between groups"
(accepting), state 1 is "a dash was read, a digit is required", state 2 is
"inside a group's digit run" (accepting). -/
def dashDigitGroupsFrom : Str → Nat → Bool
  | [], st => st ≠ 1
  | c :: rest, 0 => if c = '-' then dashDigitGroupsFrom rest 1 else false
  | c :: rest, 1 => if isUniDig c then dashDigitGroupsFrom rest 2 else false
  | c :: rest, _ =>
    if isUniDig c then dashDigitGroupsFrom rest 2
    else if c = '-' then dashDigitGroupsFrom rest 1
    else false

/-- Recognizer for the regex fragment `(-\d+)*$`: a (possibly empty) run of
groups, each a dash followed by one or more digits.  Modelled from the spec:
this is the tail of the spec's claimed pattern, which does NOT appear in the
source (the source uses `[-]*[\d]*` instead). -/
def dashDigitGroups (s : Str) : Bool := dashDigitGroupsFrom s 0

/-- Modelled from the spec: recognizer for the spec's claimed pattern
`^\d+[A-Za-z]+(-\d+)*$` (spec §8, claim C1), which differs from the
source's `^(\d+)([a-zA-Z]+[-]*[\d]*)$`. -/
def specMatch (s : Str) : Bool :=
  let ds := s.takeWhile isUniDig
  let r1 := s.dropWhile isUniDig
  let ls := r1.takeWhile isAlp
  let r2 := r1.dropWhile isAlp
  !ds.isEmpty && !ls.isEmpty && dashDigitGroups r2

example : specMatch "100btc".toList = true := by decide
example : specMatch "100a-1-2".toList = true := by decide
example : specMatch "100abc123".toList = false := by decide
example : specMatch "100abc-".toList = false := by decide

/-- The `Transaction` struct of `src/main.rs` (lines 35-40). -/
structure Transaction where
  amount : Nat
  token : Str
  addr : Str
deriving DecidableEq, Repr

/-- Constructor `Transaction::new()` (lines 45-51). -/
def Transaction.new : Transaction := ⟨0, [], []⟩

/-- Setter `Transaction::set_amount` (lines 65-67). -/
def Transaction.set_amount (t : Transaction) (amount : Nat) : Transaction :=
  { t with amount := amount }

/-- Setter `Transaction::set_token` (lines 69-71). -/
def Transaction.set_token (t : Transaction) (token : Str) : Transaction :=
  { t with token := token }

/-- Setter `Transaction::set_addr` (lines 73-75). -/
def Transaction.set_addr (t : Transaction) (addr : Str) : Transaction :=
  { t with addr := addr }

/-- The externally observable calls `execute_transaction` can make, in
order of appearance in the source: `connect` (line 297), `all_balances`
(line 308), the `metadata`/`read_to_string` pair on `wallet/wallet.key`
(lines 329 and 337), and `send_coins` (line 357).  `validateCall` marks
`main`'s call of `validate_args` (line 97), which is pure. -/
inductive Event where
  | validateCall
  | connect
  | allBalances
  | checkCredential
  | readCredential
  | sendCoins
deriving DecidableEq, Repr

/-- The failure cases of `execute_transaction`, in source order. -/
inductive ExecErr where
  | connectivity
  | addrParse
  | query
  | credentialMissing
  | credentialRead
  | badMnemonic
  | hrp
  | wallet
  | broadcast
deriving DecidableEq, Repr

/-- Oracle for the external chain client, the filesystem and the wallet
library: each field fixes whether the corresponding fallible call of
`execute_transaction` succeeds, and `receipt` is the `TxResponse`
(`code`, `height`, `txhash`) that a successful `send_coins` returns. -/
structure ChainEnv where
  connectOk : Bool
  addrOk : Bool
  balancesOk : Bool
  walletKeyExists : Bool
  walletKeyReadOk : Bool
  mnemonicOk : Bool
  hrpOk : Bool
  walletOk : Bool
  sendOk : Bool
  receipt : Nat × Int × String
deriving DecidableEq, Repr

/-- Function `execute_transaction` from `src/main.rs` (lines 293-362), as a function
of the external-world oracle; returns the list of external calls made (in
order) together with the result.  The balance-iteration loop (lines
312-320) only logs and is omitted; `Address::from_str` (line 302) and the
wallet-derivation calls (lines 341-347) are pure library calls and produce
no event. -/
def execute_transaction (env : ChainEnv) (_t : Transaction) :
    List Event × Except ExecErr (Nat × Int × String) :=
  if !env.connectOk then ([.connect], .error .connectivity)
  else if !env.addrOk then ([.connect], .error .addrParse)
  else if !env.balancesOk then ([.connect, .allBalances], .error .query)
  else if !env.walletKeyExists then
    ([.connect, .allBalances, .checkCredential], .error .credentialMissing)
  else if !env.walletKeyReadOk then
    ([.connect, .allBalances, .checkCredential, .readCredential], .error .credentialRead)
  else if !env.mnemonicOk then
    ([.connect, .allBalances, .checkCredential, .readCredential], .error .badMnemonic)
  else if !env.hrpOk then
    ([.connect, .allBalances, .checkCredential, .readCredential], .error .hrp)
  else if !env.walletOk then
    ([.connect, .allBalances, .checkCredential, .readCredential], .error .wallet)
  else if !env.sendOk then
    ([.connect, .allBalances, .checkCredential, .readCredential, .sendCoins], .error .broadcast)
  else
    ([.connect, .allBalances, .checkCredential, .readCredential, .sendCoins], .ok env.receipt)

/-- The failure cases of `main`: wrong argument count (lines 88-91), a
validation error (lines 114-117), a failed `execute_transaction` (lines
139-142), or a receipt with nonzero code (lines 134-137). -/
inductive MainErr where
  | usage
  | validation (e : VErr)
  | exec (e : ExecErr)
  | logicalFailure (code : Nat) (height : Int) (txhash : String)
deriving DecidableEq, Repr

/-- The tail of `main` after a successful validation (lines 99-143): build
the `Transaction`, run `execute_transaction`, then classify the receipt
code (`code == 0` is success, any other code an error).  The returned trace
is prefixed with the validation call that preceded it. -/
def mainExec (env : ChainEnv) (amount : Nat) (token addr : Str) :
    List Event × Except MainErr Unit :=
  let t := ((Transaction.new.set_amount amount).set_token token).set_addr addr
  let (tr, res) := execute_transaction env t
  match res with
  | .error e => (.validateCall :: tr, .error (.exec e))
  | .ok (code, height, txhash) =>
    (.validateCall :: tr,
     if code = 0 then .ok () else .error (.logicalFailure code height txhash))

/-- Function `main` from `src/main.rs` (lines 79-146), as a function of the argument
list and the external-world oracle: the length-2 check, `validate_args`,
then `mainExec`.  Logging setup and log statements are omitted. -/
def mainRun (args : List Str) (env : ChainEnv) : List Event × Except MainErr Unit :=
  if args.length ≠ 2 then ([], .error .usage)
  else
    match args with
    | [a0, a1] =>
      match validate_args a0 a1 with
      | .error e => ([.validateCall], .error (.validation e))
      | .ok (amount, token, addr) => mainExec env amount token addr
    | _ => ([], .error .usage)

/-- An all-success oracle used in concrete runs. -/
def envAllOk : ChainEnv :=
  ⟨true, true, true, true, true, true, true, true, true, (0, 5, "ABCDEF")⟩

/-- A concrete transaction used in concrete runs. -/
def tx0 : Transaction := ⟨100, "uosmo".toList, "osmo1x".toList⟩

example : execute_transaction envAllOk tx0
    = ([.connect, .allBalances, .checkCredential, .readCredential, .sendCoins],
       .ok (0, 5, "ABCDEF")) := by decide

example : mainRun ["100uosmo".toList, "osmo1x".toList] envAllOk
    = ([.validateCall, .connect, .allBalances, .checkCredential, .readCredential, .sendCoins],
       .ok ()) := by decide

/-! ### Character-class disjointness -/

theorem isAlp_not_dig {c : Char} (h : isAlp c = true) : isDig c = false := by
  cases hd : isDig c with
  | false => rfl
  | true =>
    exfalso
    simp only [isAlp, Bool.or_eq_true, Bool.and_eq_true, decide_eq_true_eq] at h
    simp only [isDig, Bool.and_eq_true, decide_eq_true_eq] at hd
    rcases h with ⟨h1, _⟩ | ⟨h1, _⟩
    · exact absurd (le_trans h1 hd.2) (by decide)
    · exact absurd (le_trans h1 hd.2) (by decide)

theorem isDig_not_alp {c : Char} (h : isDig c = true) : isAlp c = false := by
  cases ha : isAlp c with
  | false => rfl
  | true => rw [isAlp_not_dig ha] at h; exact absurd h (by decide)

theorem isDash_eq {c : Char} (h : isDash c = true) : c = '-' := by
  simpa [isDash] using h

theorem isDash_not_alp {c : Char} (h : isDash c = true) : isAlp c = false := by
  rw [isDash_eq h]; decide

theorem isDash_not_dig {c : Char} (h : isDash c = true) : isDig c = false := by
  rw [isDash_eq h]; decide

theorem isDig_not_dash {c : Char} (h : isDig c = true) : isDash c = false := by
  cases hd : isDash c with
  | false => rfl
  | true => rw [isDash_not_dig hd] at h; exact absurd h (by decide)

theorem isDig_imp_uniDig {c : Char} (h : isDig c = true) : isUniDig c = true := by
  simp [isUniDig, h]

theorem isAlp_le_z {c : Char} (h : isAlp c = true) : c ≤ 'z' := by
  simp only [isAlp, Bool.or_eq_true, Bool.and_eq_true, decide_eq_true_eq] at h
  rcases h with ⟨_, h2⟩ | ⟨_, h2⟩
  · exact h2
  · exact le_trans h2 (by decide)

theorem isAlp_not_uniDigExt {c : Char} (h : isAlp c = true) : isUniDigExt c = false := by
  cases hx : isUniDigExt c with
  | false => rfl
  | true =>
    exfalso
    simp only [isUniDigExt, List.any_eq_true, Bool.and_eq_true, decide_eq_true_eq] at hx
    obtain ⟨r, hr, h1, h2⟩ := hx
    have hall : ∀ r ∈ ndExtRanges, 'z' < r.1 := by decide
    exact absurd (le_trans h1 (isAlp_le_z h)) (not_le.mpr (hall r hr))

theorem isAlp_not_uniDig {c : Char} (h : isAlp c = true) : isUniDig c = false := by
  simp [isUniDig, isAlp_not_dig h, isAlp_not_uniDigExt h]

theorem isUniDig_not_alp {c : Char} (h : isUniDig c = true) : isAlp c = false := by
  cases ha : isAlp c with
  | false => rfl
  | true => rw [isAlp_not_uniDig ha] at h; exact absurd h (by decide)

theorem isDash_not_uniDig {c : Char} (h : isDash c = true) : isUniDig c = false := by
  rw [isDash_eq h]; decide

theorem isUniDig_not_dash {c : Char} (h : isUniDig c = true) : isDash c = false := by
  cases hd : isDash c with
  | false => rfl
  | true => rw [isDash_not_uniDig hd] at h; exact absurd h (by decide)

theorem validChar_of_alp {c : Char} (h : isAlp c = true) : validChar c = true := by
  simp [validChar, h]

theorem validChar_of_dig {c : Char} (h : isDig c = true) : validChar c = true := by
  simp [validChar, h]

theorem validChar_of_dash {c : Char} (h : isDash c = true) : validChar c = true := by
  rw [isDash_eq h]; decide

/-! ### takeWhile / dropWhile on block decompositions -/

theorem takeWhile_append_all (p : Char → Bool) {l1 : Str} (l2 : Str)
    (h : l1.all p = true) : (l1 ++ l2).takeWhile p = l1 ++ l2.takeWhile p := by
  induction l1 with
  | nil => simp
  | cons a t ih =>
    simp only [List.all_cons, Bool.and_eq_true] at h
    simp [List.takeWhile_cons, h.1, ih h.2]

theorem dropWhile_append_all (p : Char → Bool) {l1 : Str} (l2 : Str)
    (h : l1.all p = true) : (l1 ++ l2).dropWhile p = l2.dropWhile p := by
  induction l1 with
  | nil => simp
  | cons a t ih =>
    simp only [List.all_cons, Bool.and_eq_true] at h
    simp [List.dropWhile_cons, h.1, ih h.2]

theorem takeWhile_eq_nil_of_all_not (p : Char → Bool) {l : Str}
    (h : l.all (fun c => !p c) = true) : l.takeWhile p = [] := by
  cases l with
  | nil => rfl
  | cons a t =>
    simp only [List.all_cons, Bool.and_eq_true, Bool.not_eq_true'] at h
    simp [List.takeWhile_cons, h.1]

theorem dropWhile_eq_self_of_all_not (p : Char → Bool) {l : Str}
    (h : l.all (fun c => !p c) = true) : l.dropWhile p = l := by
  cases l with
  | nil => rfl
  | cons a t =>
    simp only [List.all_cons, Bool.and_eq_true, Bool.not_eq_true'] at h
    simp [List.dropWhile_cons, h.1]

theorem dropWhile_eq_nil_of_all (p : Char → Bool) {l : Str}
    (h : l.all p = true) : l.dropWhile p = [] := by
  have := dropWhile_append_all p [] h
  simpa using this

theorem all_takeWhile_self (p : Char → Bool) (l : Str) :
    (l.takeWhile p).all p = true := by
  induction l with
  | nil => rfl
  | cons a t ih =>
    by_cases h : p a = true
    · simp [List.takeWhile_cons, h, ih]
    · simp [List.takeWhile_cons, h]

theorem all_weaken {p q : Char → Bool} {l : Str} (h : l.all p = true)
    (himp : ∀ c, p c = true → q c = true) : l.all q = true := by
  induction l with
  | nil => rfl
  | cons a t ih =>
    simp only [List.all_cons, Bool.and_eq_true] at h ⊢
    exact ⟨himp a h.1, ih h.2⟩

/-! ### Characterization of the `amount_token_regex` capture -/

/-- If the input decomposes into nonempty digits, nonempty letters, dashes
and digits (digit blocks in the Unicode class `\d`), then
`amount_token_regex` captures the digit block and the remainder. -/
theorem amountTokenCaptures_of_decomp {ds ls hs gs : Str}
    (hds : ds ≠ []) (hdsd : ds.all isUniDig = true)
    (hls : ls ≠ []) (hlsa : ls.all isAlp = true)
    (hhsd : hs.all isDash = true) (hgsd : gs.all isUniDig = true) :
    amountTokenCaptures (ds ++ (ls ++ (hs ++ gs))) = some (ds, ls ++ (hs ++ gs)) := by
  have hnotalp : (hs ++ gs).all (fun c => !isAlp c) = true := by
    rw [List.all_append, Bool.and_eq_true]
    exact ⟨all_weaken hhsd fun c hc => by simp [isDash_not_alp hc],
           all_weaken hgsd fun c hc => by simp [isUniDig_not_alp hc]⟩
  obtain ⟨a, ls2, rfl⟩ : ∃ a t, ls = a :: t := by
    cases ls with
    | nil => exact absurd rfl hls
    | cons a t => exact ⟨a, t, rfl⟩
  have hla : isAlp a = true := by
    simp only [List.all_cons, Bool.and_eq_true] at hlsa
    exact hlsa.1
  have e1 : (ds ++ (a :: ls2 ++ (hs ++ gs))).takeWhile isUniDig = ds := by
    rw [takeWhile_append_all isUniDig _ hdsd, List.cons_append, List.takeWhile_cons,
        isAlp_not_uniDig hla]
    simp
  have e2 : (ds ++ (a :: ls2 ++ (hs ++ gs))).dropWhile isUniDig
      = a :: ls2 ++ (hs ++ gs) := by
    rw [dropWhile_append_all isUniDig _ hdsd, List.cons_append, List.dropWhile_cons,
        isAlp_not_uniDig hla]
    simp
  have e3 : (a :: ls2 ++ (hs ++ gs)).takeWhile isAlp = a :: ls2 := by
    rw [takeWhile_append_all isAlp _ hlsa, takeWhile_eq_nil_of_all_not isAlp hnotalp,
        List.append_nil]
  have e4 : (a :: ls2 ++ (hs ++ gs)).dropWhile isAlp = hs ++ gs := by
    rw [dropWhile_append_all isAlp _ hlsa]
    exact dropWhile_eq_self_of_all_not isAlp hnotalp
  have e5 : (hs ++ gs).dropWhile isDash = gs := by
    rw [dropWhile_append_all isDash _ hhsd]
    exact dropWhile_eq_self_of_all_not isDash
      (all_weaken hgsd fun c hc => by simp [isUniDig_not_dash hc])
  have e6 : gs.dropWhile isUniDig = [] := dropWhile_eq_nil_of_all isUniDig hgsd
  have hde : ds.isEmpty = false := by
    cases ds with
    | nil => exact absurd rfl hds
    | cons _ _ => rfl
  simp only [amountTokenCaptures, e1, e2, e3, e4, e5, e6]
  simp [hde]

/-- Conversely, a successful `amount_token_regex` capture yields such a
decomposition. -/
theorem decomp_of_amountTokenCaptures {s ds tok : Str}
    (h : amountTokenCaptures s = some (ds, tok)) :
    s = ds ++ tok ∧ ds ≠ [] ∧ ds.all isUniDig = true ∧
      ∃ ls hs gs, tok = ls ++ (hs ++ gs) ∧ ls ≠ [] ∧ ls.all isAlp = true ∧
        hs.all isDash = true ∧ gs.all isUniDig = true := by
  simp only [amountTokenCaptures] at h
  split at h
  · exact absurd h (by simp)
  · rename_i hc
    obtain ⟨rfl, rfl⟩ : s.takeWhile isUniDig = ds ∧ s.dropWhile isUniDig = tok := by
      simpa using h
    rw [Bool.not_eq_true] at hc
    simp only [Bool.or_eq_false_iff, Bool.not_eq_false', List.isEmpty_eq_false,
      List.isEmpty_eq_true] at hc
    obtain ⟨⟨hds, hls⟩, hr4⟩ := hc
    refine ⟨(List.takeWhile_append_dropWhile isUniDig s).symm, hds,
      all_takeWhile_self isUniDig s, ?_⟩
    refine ⟨(s.dropWhile isUniDig).takeWhile isAlp,
      ((s.dropWhile isUniDig).dropWhile isAlp).takeWhile isDash,
      (((s.dropWhile isUniDig).dropWhile isAlp).dropWhile isDash).takeWhile isUniDig,
      ?_, hls, all_takeWhile_self isAlp _, all_takeWhile_self isDash _,
      all_takeWhile_self isUniDig _⟩
    have h3 : (((s.dropWhile isUniDig).dropWhile isAlp).dropWhile isDash).takeWhile isUniDig
        = ((s.dropWhile isUniDig).dropWhile isAlp).dropWhile isDash := by
      have := List.takeWhile_append_dropWhile isUniDig
        (((s.dropWhile isUniDig).dropWhile isAlp).dropWhile isDash)
      rw [hr4, List.append_nil] at this
      exact this
    rw [h3]
    rw [List.takeWhile_append_dropWhile, List.takeWhile_append_dropWhile]

/-- The pattern of the source's `amount_token_regex`,
`^(\d+)([a-zA-Z]+[-]*[\d]*)$` with `\d` the Unicode decimal-digit class,
stated as an explicit block decomposition. -/
def codePattern (s : Str) : Prop :=
  ∃ ds ls hs gs, s = ds ++ (ls ++ (hs ++ gs)) ∧ ds ≠ [] ∧ ds.all isUniDig = true ∧
    ls ≠ [] ∧ ls.all isAlp = true ∧ hs.all isDash = true ∧ gs.all isUniDig = true

theorem codePattern_iff_captures {s : Str} :
    codePattern s ↔ (amountTokenCaptures s).isSome = true := by
  constructor
  · rintro ⟨ds, ls, hs, gs, rfl, h1, h2, h3, h4, h5, h6⟩
    rw [amountTokenCaptures_of_decomp h1 h2 h3 h4 h5 h6]
    rfl
  · intro h
    cases hcap : amountTokenCaptures s with
    | none => rw [hcap] at h; exact absurd h (by simp)
    | some v =>
      obtain ⟨ds, tok⟩ := v
      obtain ⟨rfl, h1, h2, ls, hs, gs, rfl, h3, h4, h5, h6⟩ :=
        decomp_of_amountTokenCaptures hcap
      exact ⟨ds, ls, hs, gs, rfl, h1, h2, h3, h4, h5, h6⟩

/-- A captured token (letters, then dashes, then digits) always passes the
`valid_str` charset check. -/
theorem validStr_token_of_decomp {ls hs gs : Str} (hls : ls ≠ [])
    (hlsa : ls.all isAlp = true) (hhsd : hs.all isDash = true)
    (hgsd : gs.all isDig = true) : validStr (ls ++ (hs ++ gs)) = true := by
  simp only [validStr, Bool.and_eq_true, Bool.not_eq_true', List.isEmpty_eq_false]
  refine ⟨fun hnil => hls (List.append_eq_nil.mp hnil).1, ?_⟩
  rw [List.all_append, Bool.and_eq_true, List.all_append, Bool.and_eq_true]
  exact ⟨all_weaken hlsa fun c hc => validChar_of_alp hc,
         all_weaken hhsd fun c hc => validChar_of_dash hc,
         all_weaken hgsd fun c hc => validChar_of_dig hc⟩

theorem parseU32_some_inv {ds : Str} {n : Nat} (h : parseU32 ds = some n) :
    n = digitsToNat ds ∧ digitsToNat ds ≤ 4294967295 ∧ ds ≠ [] ∧
      ds.all isDig = true := by
  simp only [parseU32] at h
  split at h
  · exact absurd h (by simp)
  · rename_i h1
    rw [Bool.not_eq_true] at h1
    simp only [Bool.or_eq_false_iff, Bool.not_eq_false', List.isEmpty_eq_false] at h1
    split at h
    · rename_i h2
      obtain rfl : digitsToNat ds = n := by simpa using h
      exact ⟨rfl, h2, h1.1, h1.2⟩
    · exact absurd h (by simp)

theorem parseU32_some_of_le {ds : Str} (hds : ds ≠ []) (hall : ds.all isDig = true)
    (hle : digitsToNat ds ≤ 4294967295) : parseU32 ds = some (digitsToNat ds) := by
  have h1 : ds.isEmpty = false := List.isEmpty_eq_false.mpr hds
  simp only [parseU32]
  rw [if_neg (by simp [h1, hall]), if_pos hle]

theorem parseU32_overflow {ds : Str} (h : 4294967295 < digitsToNat ds) :
    parseU32 ds = none := by
  simp only [parseU32]
  split
  · rfl
  · rw [if_neg (by omega)]

theorem parseU32_none_of_not {ds : Str}
    (h : ¬(ds.all isDig = true ∧ digitsToNat ds ≤ 4294967295)) :
    parseU32 ds = none := by
  simp only [parseU32]
  by_cases hall : ds.all isDig = true
  · split
    · rfl
    · rw [if_neg (fun hle => h ⟨hall, hle⟩)]
  · have hcond : (ds.isEmpty || !ds.all isDig) = true := by simp [hall]
    rw [if_pos hcond]

/-- Acceptance: on a decomposable first argument with in-range amount and a
charset-valid address, `validate_args` returns the parsed digit prefix and
the remainder. -/
theorem validate_args_ok_of_decomp {ds ls hs gs a1 : Str}
    (hds : ds ≠ []) (hdsd : ds.all isDig = true)
    (hls : ls ≠ []) (hlsa : ls.all isAlp = true)
    (hhsd : hs.all isDash = true) (hgsd : gs.all isDig = true)
    (hamt : digitsToNat ds ≤ 4294967295) (ha1 : validStr a1 = true) :
    validate_args (ds ++ (ls ++ (hs ++ gs))) a1
      = .ok (digitsToNat ds, ls ++ (hs ++ gs), a1) := by
  have hcap := amountTokenCaptures_of_decomp hds
    (all_weaken hdsd fun c hc => isDig_imp_uniDig hc) hls hlsa hhsd
    (all_weaken hgsd fun c hc => isDig_imp_uniDig hc)
  have htok := validStr_token_of_decomp hls hlsa hhsd hgsd
  simp [validate_args, hcap, parseU32_some_of_le hds hdsd hamt, htok, ha1]

/-- Rejection with the AMOUNTTOKEN error exactly when the capture fails. -/
theorem validate_args_badAmountToken {a0 a1 : Str}
    (h : amountTokenCaptures a0 = none) :
    validate_args a0 a1 = .error .badAmountToken := by
  simp [validate_args, h]

/-- Rejection with the amount-parse error when the capture succeeds but the
digit prefix does not parse as `u32`. -/
theorem validate_args_badAmount {a0 a1 ds tok : Str}
    (hcap : amountTokenCaptures a0 = some (ds, tok)) (hp : parseU32 ds = none) :
    validate_args a0 a1 = .error .badAmount := by
  simp [validate_args, hcap, hp]

/-- Rejection with the token-charset error when the capture and the amount
parse succeed but the token contains a character outside `[A-Za-z0-9_-]`
(reachable: a non-ASCII Unicode digit in the token's digit tail passes the
regex but fails `valid_str`). -/
theorem validate_args_badToken {a0 a1 ds tok : Str} {n : Nat}
    (hcap : amountTokenCaptures a0 = some (ds, tok)) (hp : parseU32 ds = some n)
    (htok : validStr tok = false) :
    validate_args a0 a1 = .error .badToken := by
  simp [validate_args, hcap, hp, htok]

/-- Rejection with the address error when capture, amount parse and token
charset check all pass but the address fails the charset check. -/
theorem validate_args_badAddr {a0 a1 ds tok : Str} {n : Nat}
    (hcap : amountTokenCaptures a0 = some (ds, tok)) (hp : parseU32 ds = some n)
    (htok : validStr tok = true) (ha : validStr a1 = false) :
    validate_args a0 a1 = .error .badAddr := by
  simp [validate_args, hcap, hp, htok, ha]

/-- Inversion: a successful validation comes from a successful capture, a
successful `u32` parse of the digit prefix, and two charset checks. -/
theorem validate_args_ok_inv {a0 a1 tok addr : Str} {n : Nat}
    (h : validate_args a0 a1 = .ok (n, tok, addr)) :
    ∃ ds, amountTokenCaptures a0 = some (ds, tok) ∧ parseU32 ds = some n ∧
      addr = a1 ∧ validStr tok = true ∧ validStr a1 = true := by
  unfold validate_args at h
  split at h
  · exact absurd h (by simp)
  · rename_i ds tk hcap
    split at h
    · exact absurd h (by simp)
    · rename_i m hp
      split at h
      · exact absurd h (by simp)
      · split at h
        · exact absurd h (by simp)
        · rename_i ht ha
          rw [Bool.not_eq_true, Bool.not_eq_false'] at ht ha
          simp only [Except.ok.injEq, Prod.mk.injEq] at h
          obtain ⟨rfl, rfl, rfl⟩ := h
          exact ⟨ds, hcap, hp, rfl, ht, ha⟩

/-! ### Claim theorems -/

/-- C1, counterexample: `"100a-1-2"` matches the spec's claimed pattern
`^\d+[A-Za-z]+(-\d+)*$` and its token `"a-1-2"` is charset-valid, yet
`validate_args` rejects it with the 'Invalid AMOUNTTOKEN format' error,
because the source's regex `^(\d+)([a-zA-Z]+[-]*[\d]*)$` allows only a
single dash run followed by a single digit run. -/
theorem c1_spec_pattern_not_accepted :
    specMatch "100a-1-2".toList = true ∧
    validStr "a-1-2".toList = true ∧
    validStr "addr".toList = true ∧
    validate_args "100a-1-2".toList "addr".toList = .error .badAmountToken :=
  ⟨by decide, by decide, by decide, by decide⟩

/-- C1 (amended): for every amount+token string matching the source's
Unicode pattern `^(\d+)([a-zA-Z]+[-]*[\d]*)$` whose digit prefix is
all-ASCII and at most `u32::MAX` and whose token is charset-valid,
`validate_args` (with a charset-valid address) returns `Ok` with the
amount being the parsed digit prefix and the token the remainder; for
every string not matching that pattern it returns the
'Invalid AMOUNTTOKEN format' error; on a matching string whose digit
prefix is not an in-range ASCII number the 'Invalid amount' error is
returned, and on a matching string with an in-range ASCII prefix but a
charset-invalid token (a non-ASCII digit in the tail) the token-format
error is returned. -/
theorem validate_args_amount_token_characterization (a0 a1 : Str)
    (ha1 : validStr a1 = true) :
    (∀ ds ls hs gs, a0 = ds ++ (ls ++ (hs ++ gs)) → ds ≠ [] → ds.all isDig = true →
       ls ≠ [] → ls.all isAlp = true → hs.all isDash = true → gs.all isDig = true →
       digitsToNat ds ≤ 4294967295 →
       validate_args a0 a1 = .ok (digitsToNat ds, ls ++ (hs ++ gs), a1)) ∧
    (¬ codePattern a0 → validate_args a0 a1 = .error .badAmountToken) ∧
    (∀ ds tok, amountTokenCaptures a0 = some (ds, tok) →
       ¬(ds.all isDig = true ∧ digitsToNat ds ≤ 4294967295) →
       validate_args a0 a1 = .error .badAmount) ∧
    (∀ ds tok n, amountTokenCaptures a0 = some (ds, tok) → parseU32 ds = some n →
       validStr tok = false → validate_args a0 a1 = .error .badToken) := by
  refine ⟨?_, ?_, ?_, ?_⟩
  · rintro ds ls hs gs rfl h1 h2 h3 h4 h5 h6 h7
    exact validate_args_ok_of_decomp h1 h2 h3 h4 h5 h6 h7 ha1
  · intro hnp
    have hnone : amountTokenCaptures a0 = none := by
      cases hcap : amountTokenCaptures a0 with
      | none => rfl
      | some v =>
        exact absurd (codePattern_iff_captures.mpr (by rw [hcap]; rfl)) hnp
    exact validate_args_badAmountToken hnone
  · intro ds tok hcap hnot
    exact validate_args_badAmount hcap (parseU32_none_of_not hnot)
  · intro ds tok n hcap hp htok
    exact validate_args_badToken hcap hp htok

/-- C1 witness: the amended characterization applied at `"100abc-12"`. -/
theorem c1_witness : validate_args "100abc-12".toList "addr".toList
    = .ok (100, "abc-12".toList, "addr".toList) := by
  have h := (validate_args_amount_token_characterization "100abc-12".toList
      "addr".toList (by decide)).1 "100".toList "abc".toList "-".toList "12".toList
      (by decide) (by decide) (by decide) (by decide) (by decide) (by decide)
      (by decide) (by decide)
  simpa using h

/-- C5, counterexample: `"0btc"` passes validation with amount `0`, so
`validate_args` does return `Ok` with a zero amount. -/
theorem c5_zero_amount_accepted :
    validate_args "0btc".toList "addr".toList = .ok (0, "btc".toList, "addr".toList) := by
  decide

/-- C5 (amended): every amount produced by successful validation is the
parsed digit prefix and fits in a `u32` (at most 4294967295), but it is
not necessarily strictly positive: `validate_args` returns `Ok` with
amount `0` on input `"0btc"`. -/
theorem validate_args_amount_u32_range :
    (∀ a0 a1 n tok addr, validate_args a0 a1 = .ok (n, tok, addr) → n ≤ 4294967295) ∧
    validate_args "0btc".toList "dest".toList = .ok (0, "btc".toList, "dest".toList) := by
  constructor
  · intro a0 a1 n tok addr h
    obtain ⟨ds, _, hp, _, _, _⟩ := validate_args_ok_inv h
    obtain ⟨rfl, hle, _, _⟩ := parseU32_some_inv hp
    exact hle
  · decide

/-- C5 witness: the range bound applied at input `"5a"`. -/
theorem c5_witness : (5 : Nat) ≤ 4294967295 :=
  validate_args_amount_u32_range.1 "5a".toList "b".toList 5 "a".toList "b".toList
    (by decide)

/-- C6, counterexample: with address `"addr!"` (contains `!`) and the
invalid amount+token argument `"1000234"`, `validate_args` reports the
'Invalid AMOUNTTOKEN format' error, not the address error: the address
error is NOT produced regardless of the amount+token argument. -/
theorem c6_addr_error_not_unconditional :
    validStr "addr!".toList = false ∧
    validate_args "1000234".toList "addr!".toList = .error .badAmountToken :=
  ⟨by decide, by decide⟩

/-- C6 (amended): for every address containing a character outside
`[A-Za-z0-9_-]`, `validate_args` rejects with the error naming the address
field, provided the amount+token argument passed all of its own checks
(pattern capture, `u32` parse of the digit prefix, and the token charset
check); any failing amount+token check takes precedence and its own error
is reported instead. -/
theorem validate_args_addr_charset_rejection (a0 a1 ds tok : Str) (n : Nat)
    (hcap : amountTokenCaptures a0 = some (ds, tok)) (hp : parseU32 ds = some n)
    (htok : validStr tok = true) (ha : validStr a1 = false) :
    validate_args a0 a1 = .error .badAddr :=
  validate_args_badAddr hcap hp htok ha

/-- C6 witness: the address rejection applied at `("239btc", "a!b")`. -/
theorem c6_witness : validate_args "239btc".toList "a!b".toList = .error .badAddr :=
  validate_args_addr_charset_rejection "239btc".toList "a!b".toList "239".toList
    "btc".toList 239 (by decide) (by decide) (by decide) (by decide)

/-- C9: if the digit prefix of a pattern-matching amount+token argument
exceeds `u32::MAX` (4294967295), `validate_args` returns the
'Invalid amount' parse error; and every successfully validated amount is
exactly the digit prefix value (never truncated or wrapped). -/
theorem validate_args_rejects_u32_overflow :
    (∀ a0 a1 ds tok, amountTokenCaptures a0 = some (ds, tok) →
       4294967295 < digitsToNat ds → validate_args a0 a1 = .error .badAmount) ∧
    (∀ a0 a1 n tok addr, validate_args a0 a1 = .ok (n, tok, addr) →
       ∃ ds, amountTokenCaptures a0 = some (ds, tok) ∧ n = digitsToNat ds ∧
         n ≤ 4294967295) := by
  constructor
  · intro a0 a1 ds tok hcap hover
    exact validate_args_badAmount hcap (parseU32_overflow hover)
  · intro a0 a1 n tok addr h
    obtain ⟨ds, hcap, hp, _, _, _⟩ := validate_args_ok_inv h
    obtain ⟨rfl, hle, _, _⟩ := parseU32_some_inv hp
    exact ⟨ds, hcap, rfl, hle⟩

/-- C9 witness: `"5000000000btc"` (digit prefix above `u32::MAX`) is
rejected with the amount-parse error. -/
theorem c9_witness :
    validate_args "5000000000btc".toList "addr".toList = .error .badAmount :=
  validate_args_rejects_u32_overflow.1 "5000000000btc".toList "addr".toList
    "5000000000".toList "btc".toList (by decide) (by decide)

/-- C10: `validate_args` accepts digits, then letters, then a possibly
empty run of dashes, then a possibly empty run of digits; in particular
`"100abc123"` yields token `"abc123"` and `"100abc-"` yields token
`"abc-"`. -/
theorem validate_args_accepts_letter_digit_tails :
    validate_args "100abc123".toList "addr".toList
        = .ok (100, "abc123".toList, "addr".toList) ∧
    validate_args "100abc-".toList "addr".toList
        = .ok (100, "abc-".toList, "addr".toList) ∧
    ∀ ds ls hs gs a1, ds ≠ [] → ds.all isDig = true → ls ≠ [] → ls.all isAlp = true →
      hs.all isDash = true → gs.all isDig = true → digitsToNat ds ≤ 4294967295 →
      validStr a1 = true →
      validate_args (ds ++ (ls ++ (hs ++ gs))) a1
        = .ok (digitsToNat ds, ls ++ (hs ++ gs), a1) := by
  refine ⟨by decide, by decide, ?_⟩
  intro ds ls hs gs a1 h1 h2 h3 h4 h5 h6 h7 h8
  exact validate_args_ok_of_decomp h1 h2 h3 h4 h5 h6 h7 h8

/-- C10 witness: the general shape applied at `"7z--"` (empty digit
tail). -/
theorem c10_witness : validate_args "7z--".toList "x".toList
    = .ok (7, "z--".toList, "x".toList) := by
  have h := validate_args_accepts_letter_digit_tails.2.2 "7".toList "z".toList
    "--".toList "".toList "x".toList (by decide) (by decide) (by decide) (by decide)
    (by decide) (by decide) (by decide) (by decide)
  simpa using h

/-! ### Orchestrator and main -/

/-- The all-success oracle with the wallet credential file absent. -/
def envNoCred : ChainEnv := { envAllOk with walletKeyExists := false }

/-- The oracle with both connect failing and the credential file absent. -/
def envNoCredNoConn : ChainEnv := { envNoCred with connectOk := false }

/-- Unfolding of `mainRun` on a two-element argument list. -/
theorem mainRun_cons2 (a0 a1 : Str) (env : ChainEnv) :
    mainRun [a0, a1] env =
      match validate_args a0 a1 with
      | .error e => ([Event.validateCall], .error (.validation e))
      | .ok (n, tok, addr) => mainExec env n tok addr := by
  simp only [mainRun, List.length_cons, List.length_nil]
  rw [if_neg (by decide)]

/-- Unfolding of `mainExec` into the trace and the classified result. -/
theorem mainExec_eq (env : ChainEnv) (n : Nat) (tok addr : Str) :
    mainExec env n tok addr =
      (Event.validateCall ::
        (execute_transaction env
          (((Transaction.new.set_amount n).set_token tok).set_addr addr)).1,
       match (execute_transaction env
           (((Transaction.new.set_amount n).set_token tok).set_addr addr)).2 with
       | .error e2 => .error (.exec e2)
       | .ok (code, height, txhash) =>
           if code = 0 then .ok () else .error (.logicalFailure code height txhash)) := by
  simp only [mainExec]
  generalize execute_transaction env
      (((Transaction.new.set_amount n).set_token tok).set_addr addr) = p
  obtain ⟨tr, res⟩ := p
  cases res with
  | error e2 => rfl
  | ok r => obtain ⟨code, height, txhash⟩ := r; rfl

/-- Running `mainRun` on two arguments with a successful validation runs
`mainExec`. -/
theorem mainRun_cons2_ok {a0 a1 : Str} {env : ChainEnv} {n : Nat} {tok addr : Str}
    (hv : validate_args a0 a1 = .ok (n, tok, addr)) :
    mainRun [a0, a1] env = mainExec env n tok addr := by
  rw [mainRun_cons2, hv]

/-- A `validate_args` failure makes `main` stop with that validation error
and an I/O-free trace, whatever the environment. -/
theorem mainRun_validation_err {a0 a1 : Str} {env : ChainEnv} {e : VErr}
    (hv : validate_args a0 a1 = .error e) :
    mainRun [a0, a1] env = ([Event.validateCall], .error (.validation e)) := by
  rw [mainRun_cons2, hv]

/-- A validation failure in `main` happens on exactly two arguments, comes
from `validate_args`, and leaves only the (pure) validation call in the
trace. -/
theorem mainRun_validation_inv {args : List Str} {env : ChainEnv} {e : VErr}
    (h : (mainRun args env).2 = .error (.validation e)) :
    ∃ a0 a1, args = [a0, a1] ∧ validate_args a0 a1 = .error e ∧
      mainRun args env = ([Event.validateCall], .error (.validation e)) := by
  cases args with
  | nil => simp [mainRun] at h
  | cons a0 rest =>
    cases rest with
    | nil => simp [mainRun] at h
    | cons a1 rest2 =>
      cases rest2 with
      | cons b r3 => simp [mainRun] at h
      | nil =>
        cases hv : validate_args a0 a1 with
        | error e0 =>
          rw [mainRun_validation_err hv] at h
          obtain rfl : e0 = e := by simpa using h
          exact ⟨a0, a1, rfl, hv, mainRun_validation_err hv⟩
        | ok v =>
          obtain ⟨n, tok, addr⟩ := v
          rw [mainRun_cons2_ok hv, mainExec_eq] at h
          exfalso
          cases hE : (execute_transaction env
              (((Transaction.new.set_amount n).set_token tok).set_addr addr)).2 with
          | error e2 => rw [hE] at h; simp at h
          | ok r =>
            obtain ⟨code, height, txhash⟩ := r
            rw [hE] at h
            by_cases hc : code = 0
            · simp [hc] at h
            · simp [hc] at h

/-- C2, counterexample: with the wallet credential file absent (and the
network healthy), `execute_transaction` does call `connect` and the
balance query before failing with the credential error; and when connect
also fails, a connectivity error (not a credential error) is produced. -/
theorem c2_connect_precedes_credential_check :
    (execute_transaction envNoCred tx0).2 = .error .credentialMissing ∧
    Event.connect ∈ (execute_transaction envNoCred tx0).1 ∧
    Event.allBalances ∈ (execute_transaction envNoCred tx0).1 ∧
    (execute_transaction envNoCredNoConn tx0).2 = .error .connectivity := by
  refine ⟨by decide, by decide, by decide, by decide⟩

/-- C2 (amended): when the wallet credential file is absent,
`execute_transaction` fails with the credential error, but only after the
`connect` and balance-query network calls have been made: with connect,
address parse and balance query succeeding, the call trace is exactly
`[connect, allBalances, checkCredential]` — the credential check does not
short-circuit before `connect`. -/
theorem execute_transaction_late_credential_check (env : ChainEnv) (t : Transaction)
    (hw : env.walletKeyExists = false) (hc : env.connectOk = true)
    (ha : env.addrOk = true) (hb : env.balancesOk = true) :
    execute_transaction env t
      = ([.connect, .allBalances, .checkCredential], .error .credentialMissing) := by
  simp [execute_transaction, hw, hc, ha, hb]

/-- C2 witness: the late credential check at the concrete oracle with the
wallet file absent. -/
theorem c2_witness : execute_transaction envNoCred tx0
    = ([.connect, .allBalances, .checkCredential], .error .credentialMissing) :=
  execute_transaction_late_credential_check envNoCred tx0 rfl rfl rfl rfl

/-- C3: `send_coins` appears in the trace of `execute_transaction` only if
every prior step succeeded: connect, address parse, balance query,
credential presence and read, mnemonic parse, hrp and wallet derivation. -/
theorem execute_transaction_no_send_after_failure (env : ChainEnv) (t : Transaction)
    (h : Event.sendCoins ∈ (execute_transaction env t).1) :
    env.connectOk = true ∧ env.addrOk = true ∧ env.balancesOk = true ∧
    env.walletKeyExists = true ∧ env.walletKeyReadOk = true ∧
    env.mnemonicOk = true ∧ env.hrpOk = true ∧ env.walletOk = true := by
  obtain ⟨c, a, b, w, r, m, p, o, s, rc⟩ := env
  cases c <;> cases a <;> cases b <;> cases w <;> cases r <;> cases m <;>
    cases p <;> cases o <;> simp_all [execute_transaction]

/-- C3 witness: the implication at the all-success oracle. -/
theorem c3_witness :
    envAllOk.connectOk = true ∧ envAllOk.addrOk = true ∧ envAllOk.balancesOk = true ∧
    envAllOk.walletKeyExists = true ∧ envAllOk.walletKeyReadOk = true ∧
    envAllOk.mnemonicOk = true ∧ envAllOk.hrpOk = true ∧ envAllOk.walletOk = true :=
  execute_transaction_no_send_after_failure envAllOk tx0 (by decide)

/-- C4: when broadcasting returns a receipt, `main` classifies code 0 as
overall success (`Ok`) and any nonzero code as overall failure (an
`Err` carrying the receipt), even though the broadcast itself returned
without a transport error. -/
theorem main_receipt_code_classification (env : ChainEnv) (a0 a1 : Str)
    (n : Nat) (tok addr : Str) (code : Nat) (height : Int) (txhash : String)
    (hv : validate_args a0 a1 = .ok (n, tok, addr))
    (hx : (execute_transaction env
        (((Transaction.new.set_amount n).set_token tok).set_addr addr)).2
      = .ok (code, height, txhash)) :
    (mainRun [a0, a1] env).2
      = (if code = 0 then .ok () else .error (.logicalFailure code height txhash)) := by
  rw [mainRun_cons2_ok hv, mainExec_eq, hx]

/-- C4 witness: the classification at the all-success oracle, whose receipt
code is 0. -/
theorem c4_witness : (mainRun ["100uosmo".toList, "osmo1x".toList] envAllOk).2 = .ok () := by
  have h := main_receipt_code_classification envAllOk "100uosmo".toList "osmo1x".toList
    100 "uosmo".toList "osmo1x".toList 0 5 "ABCDEF" (by decide) (by decide)
  simpa using h

/-- C7: with a positional-argument list of any length other than two,
`main` reports the usage error with an empty trace: no validation call, no
credential access and no network call happens. -/
theorem main_usage_error_short_circuits (args : List Str) (env : ChainEnv)
    (h : args.length ≠ 2) : mainRun args env = ([], .error .usage) := by
  simp [mainRun, h]

/-- C7 witness: the usage error on a one-argument invocation. -/
theorem c7_witness : mainRun ["100uosmo".toList] envAllOk = ([], .error .usage) :=
  main_usage_error_short_circuits ["100uosmo".toList] envAllOk (by decide)

/-- C8: validation is deterministic and side-effect-free: two calls of
`validate_args` on the same input agree; a validation failure in `main` is
the same in every environment (no I/O can influence it); and when
validation fails the trace holds only the pure validation call (no I/O
was performed). -/
theorem validate_args_deterministic_no_io :
    (∀ a0 a1 r1 r2, validate_args a0 a1 = r1 → validate_args a0 a1 = r2 → r1 = r2) ∧
    (∀ args env env2 e, (mainRun args env).2 = .error (.validation e) →
       (mainRun args env2).2 = .error (.validation e)) ∧
    (∀ args env e, (mainRun args env).2 = .error (.validation e) →
       (mainRun args env).1 = [Event.validateCall]) := by
  refine ⟨fun a0 a1 r1 r2 h1 h2 => h1 ▸ h2, ?_, ?_⟩
  · intro args env env2 e h
    obtain ⟨a0, a1, rfl, hv, _⟩ := mainRun_validation_inv h
    rw [mainRun_validation_err hv]
  · intro args env e h
    obtain ⟨a0, a1, rfl, hv, hm⟩ := mainRun_validation_inv h
    rw [hm]

/-- C8 witness: determinism and environment-independence at the concrete
failing input `"btc"` (no digit prefix). -/
theorem c8_witness :
    validate_args "btc".toList "osmo1x".toList = .error .badAmountToken ∧
    (mainRun ["btc".toList, "osmo1x".toList] envNoCredNoConn).2
      = .error (.validation .badAmountToken) := by
  constructor
  · exact validate_args_deterministic_no_io.1 "btc".toList "osmo1x".toList
      (.error .badAmountToken) (.error .badAmountToken) (by decide) (by decide)
  · exact validate_args_deterministic_no_io.2.1
      ["btc".toList, "osmo1x".toList] envAllOk envNoCredNoConn .badAmountToken (by decide)
